import Mathlib

/-!
Shallow embedding of the snake-game escrow program
(src/programs/snake-game/src/lib.rs) and verification of the frozen claims.

Machine integers: u64 values are modelled as Nat together with explicit
checked operations that fail (return none) on wrap past 2^64, mirroring the
Rust checked_* methods; i64 timestamps are modelled as Int with explicit
range checks.  Fallible instruction handlers return Except: an error result
models the Solana runtime discarding every account mutation of the failed
instruction (transaction rollback), an ok result carries the persisted
account states.
-/

namespace SnakeGame

/-- Size of the u64 value space: arithmetic that reaches this bound wraps in
the machine, so the checked operations fail there. -/
def U64_MOD : Nat := 2 ^ 64

/-- Rust u64 checked_add. -/
def checkedAdd (a b : Nat) : Option Nat :=
  if a + b < U64_MOD then some (a + b) else none

/-- Rust u64 checked_sub. -/
def checkedSub (a b : Nat) : Option Nat :=
  if b ≤ a then some (a - b) else none

/-- Rust u64 checked_mul. -/
def checkedMul (a b : Nat) : Option Nat :=
  if a * b < U64_MOD then some (a * b) else none

/-- Rust u64 checked_div: fails only on division by zero. -/
def checkedDiv (a b : Nat) : Option Nat :=
  if b = 0 then none else some (a / b)

/-- Rust u64 checked_rem: fails only on division by zero. -/
def checkedRem (a b : Nat) : Option Nat :=
  if b = 0 then none else some (a % b)

/-- Smallest i64 value. -/
def I64_MIN : Int := -(2 ^ 63)

/-- Largest i64 value. -/
def I64_MAX : Int := 2 ^ 63 - 1

/-- Rust i64 checked_add. -/
def checkedAddI64 (a b : Int) : Option Int :=
  if I64_MIN ≤ a + b ∧ a + b ≤ I64_MAX then some (a + b) else none

/-- Modelled from the spec: the source uses a plain Rust addition in the
vault-balance requires (the expressions of the shape balance >= amount +
rent_exempt_amount); whether that addition panics or wraps on overflow is
fixed by the build profile (Cargo.toml), which is not part of src/.  The
spec states that all arithmetic is overflow-detecting and that any overflow
aborts the whole settlement, so the plain addition is modelled as failing
(aborting the instruction) when the mathematical sum leaves the u64 range. -/
def specAdd (a b : Nat) : Option Nat :=
  if a + b < U64_MOD then some (a + b) else none

/-- Alphabet of the base58 encoding used by the Display instance of Solana
public keys. -/
def base58Alphabet : List Char := "123456789ABCDEFGHJKLMNPQRSTUVWXYZabcdefghijkmnopqrstuvwxyz".data

/-- Digits (most significant first) of n in base 58; fuel-structured so that
it evaluates by kernel reduction. -/
def base58DigitsAux : Nat → Nat → List Char
  | 0, _ => []
  | _ + 1, 0 => []
  | fuel + 1, n => base58DigitsAux fuel (n / 58) ++ [base58Alphabet.getD (n % 58) '1']

/-- Big-endian 32-byte representation of a public key (Pubkey::to_bytes). -/
def pubkeyBytes (pk : Nat) : List Nat :=
  (List.range 32).map (fun i => pk / 256 ^ (31 - i) % 256)

/-- Number of leading zero bytes of a public key, each rendered as the
character 1 by the base58 encoding. -/
def leadingZeroBytes (pk : Nat) : Nat :=
  ((pubkeyBytes pk).takeWhile (fun b => b = 0)).length

/-- Display form of a Solana public key: base58 of the 32-byte value, with
one leading 1 per leading zero byte. -/
def pubkeyToBase58 (pk : Nat) : String :=
  ⟨List.replicate (leadingZeroBytes pk) '1' ++ base58DigitsAux 64 pk⟩

/-- Bytes of a message string (str::as_bytes).  Every message the program
builds is plain ASCII (the lobby id is restricted to alphanumerics, the
underscore and the dash; base58 and decimal renderings are alphanumeric), so
the UTF-8 bytes are exactly the code points of the characters. -/
def strBytes (s : String) : List Nat := s.data.map Char.toNat

/-- Message signed by the backend for a prize claim:
format("game:{}:{}:{}", lobby.id, winner.to_string(), nonce). -/
def gameMessage (lobbyId : String) (winner : Nat) (nonce : Nat) : String :=
  "game:" ++ lobbyId ++ ":" ++ pubkeyToBase58 winner ++ ":" ++ toString nonce

/-- Message signed by the backend for a draw refund claim:
format("draw:{}:{}:{}", lobby.id, claimer.to_string(), nonce). -/
def drawMessage (lobbyId : String) (claimer : Nat) (nonce : Nat) : String :=
  "draw:" ++ lobbyId ++ ":" ++ pubkeyToBase58 claimer ++ ":" ++ toString nonce

/-- BACKEND_AUTHORITY constant, the integer value of the 32 bytes of
FrmyQzmFNBeEiUUA1nkv4Yh9KDB8fheeaCQqQZZCp53S. -/
def BACKEND_AUTHORITY : Nat :=
  99855000354263345732641408112082084371230222314260402715958865206678657509797

/-- COMMISSION_CLAIMER constant, the integer value of the 32 bytes of
3wSMiq3LLjawSCnMpcSrAF7a5D9CazWyLotEaEP4Mkch. -/
def COMMISSION_CLAIMER : Nat :=
  19748772442389504659286014348949327023010565995816533373044823163234726879730

/-- Identity of the ed25519 signature-verification native program. -/
def ED25519_PROGRAM_ID : Nat :=
  1578283333639560309966238443336078685972541156588233835156235033907424133120

/-- MIN_BET_AMOUNT constant (0.01 SOL in lamports). -/
def MIN_BET_AMOUNT : Nat := 10000000

/-- GAME_TIMEOUT_SECONDS constant (60 minutes). -/
def GAME_TIMEOUT_SECONDS : Int := 60 * 60

/-- PUBKEY_SERIALIZED_SIZE constant. -/
def PUBKEY_SERIALIZED_SIZE : Nat := 32

/-- SIGNATURE_SERIALIZED_SIZE constant. -/
def SIGNATURE_SERIALIZED_SIZE : Nat := 64

/-- SIGNATURE_OFFSETS_SERIALIZED_SIZE constant. -/
def SIGNATURE_OFFSETS_SERIALIZED_SIZE : Nat := 14

/-- SIGNATURE_OFFSETS_START constant. -/
def SIGNATURE_OFFSETS_START : Nat := 2

/-- Header size of an ed25519 program instruction: 2 bytes of counts plus
one 14-byte offsets record. -/
def FULL_HEADER_SIZE : Nat := SIGNATURE_OFFSETS_START + SIGNATURE_OFFSETS_SERIALIZED_SIZE

/-- GameError codes of the program. -/
inductive GameError
  | LobbyNotAvailable
  | LobbyFull
  | CannotJoinOwnLobby
  | GameNotInProgress
  | InvalidWinner
  | InvalidSignature
  | InsufficientCommission
  | InvalidCreator
  | InsufficientVaultBalance
  | InvalidVaultOwner
  | BetAmountTooSmall
  | ArithmeticOverflow
  | PrizeAlreadyClaimed
  | WinnerMustSign
  | OnlyParticipantsCanCancel
  | TimeoutNotReached
  | GameNotStarted
  | GameAlreadyCompleted
  | GameAlreadyCancelled
  | OpponentNotFound
  | InvalidOpponent
  | CannotReferSelf
  | InvalidReferrer
  | GameNotInDraw
  | InvalidClaimer
  | ClaimerMustSign
  | RefundAlreadyClaimed
  | GameNotFinished
  | VaultNotEmpty
  | LobbyIdTooLong
  | InvalidLobbyId
deriving DecidableEq

/-- Errors an instruction can abort with: a typed GameError, a failure of
the sysvar instruction loader, a failed lamport transfer primitive
(add_lamports or sub_lamports), or the abort of an overflow-detected plain
addition (see specAdd). -/
inductive Err
  | game (e : GameError)
  | sysvarLoad
  | lamportsOp
  | overflowAbort
deriving DecidableEq

/-- LobbyStatus enum. -/
inductive LobbyStatus
  | Waiting
  | InProgress
  | Completed
  | Cancelled
  | Draw
deriving DecidableEq

/-- Lobby account state. -/
structure Lobby where
  id : String
  creator : Nat
  opponent : Option Nat
  betAmount : Nat
  status : LobbyStatus
  winner : Option Nat
  referrer : Option Nat
  creatorClaimedDraw : Option Bool
  opponentClaimedDraw : Option Bool
  commissionTakenDraw : Bool
  createdAt : Int
  gameStartedAt : Option Int
  completedAt : Option Int
deriving DecidableEq

/-- One instruction of the transaction, as read back from the instructions
sysvar: the invoked program and the raw instruction data bytes. -/
structure EdInstr where
  programId : Nat
  data : List Nat
deriving DecidableEq

/-- Instructions-sysvar view: the transaction's instruction list and the
index of the currently executing instruction. -/
structure SigEnv where
  instructions : List EdInstr
  currentIndex : Nat
deriving DecidableEq

/-- Ambient chain values read by the handlers: Rent::minimum_balance(0) and
Clock unix_timestamp. -/
structure SysEnv where
  rentMin : Nat
  now : Int
deriving DecidableEq

/-- Rust Option::ok_or followed by the question-mark operator: unwrap the
value or abort the instruction with the given error. -/
def okOr (o : Option α) (e : Err) : Except Err α :=
  match o with
  | some a => .ok a
  | none => .error e

/-- The require! macro: continue when the condition holds, otherwise abort
with the given GameError. -/
def req (b : Prop) [Decidable b] (e : GameError) : Except Err Unit :=
  if b then .ok () else .error (.game e)

/-- Little-endian u16 read at position i of the instruction data
(u16::from_le_bytes of the two bytes there). -/
def readLE16 (l : List Nat) (i : Nat) : Nat :=
  l.getD i 0 + 256 * l.getD (i + 1) 0

/-- Byte range a..b of the instruction data (the Rust slice data[a..b]). -/
def listSlice (l : List Nat) (a b : Nat) : List Nat :=
  (l.drop a).take (b - a)

/-- Embedding of verify_ed25519_signature: locate the instruction preceding
the current one, check it is an ed25519-program instruction carrying exactly
one signature, parse its offsets record, and check that the embedded public
key, message and signature byte ranges are in bounds and byte-for-byte equal
to the expected values. -/
def verifyEd25519Signature (env : SigEnv) (expectedPublicKey message signature : List Nat) :
    Except Err Unit := do
  let currentIndex := env.currentIndex
  req (0 < currentIndex) .InvalidSignature
  let inst ← okOr (env.instructions.get? (currentIndex - 1)) .sysvarLoad
  req (inst.programId = ED25519_PROGRAM_ID) .InvalidSignature
  let d := inst.data
  req (FULL_HEADER_SIZE ≤ d.length) .InvalidSignature
  req (d.getD 0 0 = 1) .InvalidSignature
  let signatureOffset := readLE16 d 2
  let signatureInstIndex := readLE16 d 4
  let publicKeyOffset := readLE16 d 6
  let publicKeyInstIndex := readLE16 d 8
  let messageDataOffset := readLE16 d 10
  let messageDataSize := readLE16 d 12
  let messageInstIndex := readLE16 d 14
  req (signatureInstIndex = 65535) .InvalidSignature
  req (publicKeyInstIndex = 65535) .InvalidSignature
  req (messageInstIndex = 65535) .InvalidSignature
  let pubkeyEnd := publicKeyOffset + PUBKEY_SERIALIZED_SIZE
  req (FULL_HEADER_SIZE ≤ publicKeyOffset) .InvalidSignature
  req (pubkeyEnd ≤ d.length) .InvalidSignature
  req (listSlice d publicKeyOffset pubkeyEnd = expectedPublicKey) .InvalidSignature
  let msgEnd := messageDataOffset + messageDataSize
  req (FULL_HEADER_SIZE ≤ messageDataOffset) .InvalidSignature
  req (msgEnd ≤ d.length) .InvalidSignature
  req (listSlice d messageDataOffset msgEnd = message) .InvalidSignature
  let sigEnd := signatureOffset + SIGNATURE_SERIALIZED_SIZE
  req (FULL_HEADER_SIZE ≤ signatureOffset) .InvalidSignature
  req (sigEnd ≤ d.length) .InvalidSignature
  req (listSlice d signatureOffset sigEnd = signature) .InvalidSignature

/-- Accounts of the claim_prize instruction that the handler can read or
mutate: the lobby, the per-round vault balance, the global commission-vault
balance, the winner signer (key, balance, signer flag), the optional
referrer account (key and balance) and the contract-state commission
accumulator. -/
structure ClaimPrizeCtx where
  lobby : Lobby
  vaultBal : Nat
  commissionVaultBal : Nat
  winnerKey : Nat
  winnerBal : Nat
  winnerIsSigner : Bool
  referrer : Option (Nat × Nat)
  accumulatedCommission : Nat
deriving DecidableEq

/-- Accounts of the claim_draw_refund instruction (same shape as
ClaimPrizeCtx with the claimer in place of the winner). -/
structure ClaimDrawCtx where
  lobby : Lobby
  vaultBal : Nat
  commissionVaultBal : Nat
  claimerKey : Nat
  claimerBal : Nat
  claimerIsSigner : Bool
  referrer : Option (Nat × Nat)
  accumulatedCommission : Nat
deriving DecidableEq

/-- Accounts of the cancel_game_timeout instruction. -/
structure CancelCtx where
  lobby : Lobby
  vaultBal : Nat
  commissionVaultBal : Nat
  creatorKey : Nat
  creatorBal : Nat
  opponentKey : Nat
  opponentBal : Nat
  cancellerKey : Nat
  referrer : Option (Nat × Nat)
  accumulatedCommission : Nat
deriving DecidableEq

/-- Accounts of the claim_commission instruction: contract state and the two
balances that move.  The claimer key is pinned to COMMISSION_CLAIMER by an
Anchor account constraint before the handler runs, so it carries no degree
of freedom. -/
structure ClaimCommissionCtx where
  accumulatedCommission : Nat
  commissionVaultBal : Nat
  claimerBal : Nat
deriving DecidableEq

/-- Accounts of the close_lobby instruction.  The has_one constraint pins
the creator account to lobby.creator before the handler runs. -/
structure CloseLobbyCtx where
  lobby : Lobby
  vaultBal : Nat
  creatorBal : Nat
deriving DecidableEq

/-- Commission split of the claim_prize settlement: with a referrer the
total is halved, the indivisible remainder goes to the platform share; with
no referrer the platform takes all of it. -/
def prizeCommissionSplit (totalCommission : Nat) (hasReferrer : Bool) :
    Except Err (Nat × Nat) := do
  if hasReferrer then
    let halfCommission ← okOr (checkedDiv totalCommission 2) (.game .ArithmeticOverflow)
    let doubled ← okOr (checkedMul halfCommission 2) (.game .ArithmeticOverflow)
    let remainder ← okOr (checkedSub totalCommission doubled) (.game .ArithmeticOverflow)
    let ourCommission ← okOr (checkedAdd halfCommission remainder) (.game .ArithmeticOverflow)
    pure (ourCommission, halfCommission)
  else
    pure (totalCommission, 0)

/-- Commission split of the two-claim settlements (draw refund and
in-progress timeout): with a referrer both explicit shares are the rounded
half; with no referrer the platform takes the total minus the indivisible
remainder.  Either way the remainder stays in the vault. -/
def drawCommissionValues (totalCommission : Nat) (hasReferrer : Bool) :
    Except Err (Nat × Nat) := do
  let remainder ← okOr (checkedRem totalCommission 2) (.game .ArithmeticOverflow)
  let halfCommission ← okOr (checkedDiv totalCommission 2) (.game .ArithmeticOverflow)
  if hasReferrer then
    pure (halfCommission, halfCommission)
  else
    let ourCommission ← okOr (checkedSub totalCommission remainder) (.game .ArithmeticOverflow)
    pure (ourCommission, 0)

/-- Per-player deduction of the two-claim settlements: ceiling half of the
total commission, computed as (totalCommission + 1) / 2. -/
def commissionPerPlayer (totalCommission : Nat) : Except Err Nat := do
  let bumped ← okOr (checkedAdd totalCommission 1) (.game .ArithmeticOverflow)
  okOr (checkedDiv bumped 2) (.game .ArithmeticOverflow)

/-- Referrer-commission transfer block shared verbatim by claim_prize,
claim_draw_refund and cancel_game_timeout.  Arguments are the lobby's
stored referrer, the referrer account passed to the instruction, the
referrer share, the rent minimum, and the running accumulator, vault and
commission-vault values; the result is their updated values plus the
updated referrer account.  When the stored referrer does not match the
passed account the instruction aborts; when the account is absent or could
not viably receive funds, the share is folded into the platform commission
instead. -/
def payReferrer (lobbyReferrer : Option Nat) (refAcc : Option (Nat × Nat))
    (referrerCommission rentMin acc vault commVault : Nat) :
    Except Err (Nat × Nat × Nat × Option (Nat × Nat)) := do
  match lobbyReferrer with
  | none => pure (acc, vault, commVault, refAcc)
  | some referrerKey =>
    match refAcc with
    | some ra => do
      req (ra.1 = referrerKey) .InvalidReferrer
      if 0 < ra.2 ∨ rentMin ≤ referrerCommission then
        let v ← okOr (checkedSub vault referrerCommission) .lamportsOp
        let rb ← okOr (checkedAdd ra.2 referrerCommission) .lamportsOp
        pure (acc, v, commVault, some (ra.1, rb))
      else
        let a ← okOr (checkedAdd acc referrerCommission) (.game .ArithmeticOverflow)
        let v ← okOr (checkedSub vault referrerCommission) .lamportsOp
        let cv ← okOr (checkedAdd commVault referrerCommission) .lamportsOp
        pure (a, v, cv, some ra)
    | none => do
      let a ← okOr (checkedAdd acc referrerCommission) (.game .ArithmeticOverflow)
      let v ← okOr (checkedSub vault referrerCommission) .lamportsOp
      let cv ← okOr (checkedAdd commVault referrerCommission) .lamportsOp
      pure (a, v, cv, none)

/-- Embedding of claim_prize: guards, signature verification, terminal state
transition, commission split and the three transfers out of the vault. -/
def claimPrize (c : ClaimPrizeCtx) (gameSignature : List Nat) (nonce : Nat)
    (env : SigEnv) (sys : SysEnv) : Except Err ClaimPrizeCtx := do
  let lobby := c.lobby
  let winner := c.winnerKey
  req (lobby.status = .InProgress) .GameNotInProgress
  req (lobby.winner = none) .PrizeAlreadyClaimed
  req (winner = lobby.creator ∨ some winner = lobby.opponent) .InvalidWinner
  req (c.winnerIsSigner = true) .WinnerMustSign
  let message := gameMessage lobby.id winner nonce
  req (gameSignature.length = 64) .InvalidSignature
  verifyEd25519Signature env (pubkeyBytes BACKEND_AUTHORITY) (strBytes message) gameSignature
  let lobby := { lobby with
    winner := some winner, status := .Completed, completedAt := some sys.now }
  let totalPool ← okOr (checkedMul lobby.betAmount 2) (.game .ArithmeticOverflow)
  let pool5 ← okOr (checkedMul totalPool 5) (.game .ArithmeticOverflow)
  let totalCommission ← okOr (checkedDiv pool5 100) (.game .ArithmeticOverflow)
  let split ← prizeCommissionSplit totalCommission lobby.referrer.isSome
  let ourCommission := split.1
  let referrerCommission := split.2
  let prizeAfterCommission ← okOr (checkedSub totalPool totalCommission) (.game .ArithmeticOverflow)
  let acc ← okOr (checkedAdd c.accumulatedCommission ourCommission) (.game .ArithmeticOverflow)
  let needed ← okOr (specAdd totalPool sys.rentMin) .overflowAbort
  req (needed ≤ c.vaultBal) .InsufficientVaultBalance
  let vault1 ← okOr (checkedSub c.vaultBal ourCommission) .lamportsOp
  let commVault1 ← okOr (checkedAdd c.commissionVaultBal ourCommission) .lamportsOp
  let step ← payReferrer lobby.referrer c.referrer referrerCommission sys.rentMin acc vault1 commVault1
  let vault2 ← okOr (checkedSub step.2.1 prizeAfterCommission) .lamportsOp
  let winnerBal1 ← okOr (checkedAdd c.winnerBal prizeAfterCommission) .lamportsOp
  req (sys.rentMin ≤ vault2) .InsufficientVaultBalance
  pure { c with
    lobby := lobby
    vaultBal := vault2
    commissionVaultBal := step.2.2.1
    winnerBal := winnerBal1
    referrer := step.2.2.2
    accumulatedCommission := step.1 }

/-- Embedding of claim_draw_refund: guards, signature verification, one-shot
commission settlement guarded by commissionTakenDraw, refund transfer, and
the per-claimer flag plus first-claim Draw transition. -/
def claimDrawRefund (c : ClaimDrawCtx) (gameSignature : List Nat) (nonce : Nat)
    (env : SigEnv) (sys : SysEnv) : Except Err ClaimDrawCtx := do
  let lobby := c.lobby
  let claimer := c.claimerKey
  req (lobby.status = .InProgress ∨ lobby.status = .Draw) .GameNotInProgress
  req (claimer = lobby.creator ∨ some claimer = lobby.opponent) .InvalidClaimer
  req lobby.opponent.isSome .OpponentNotFound
  if claimer = lobby.creator then
    req (lobby.creatorClaimedDraw = none) .RefundAlreadyClaimed
  else
    req (lobby.opponentClaimedDraw = none) .RefundAlreadyClaimed
  req (c.claimerIsSigner = true) .ClaimerMustSign
  let message := drawMessage lobby.id claimer nonce
  req (gameSignature.length = 64) .InvalidSignature
  verifyEd25519Signature env (pubkeyBytes BACKEND_AUTHORITY) (strBytes message) gameSignature
  let totalPool ← okOr (checkedMul lobby.betAmount 2) (.game .ArithmeticOverflow)
  let pool5 ← okOr (checkedMul totalPool 5) (.game .ArithmeticOverflow)
  let totalCommission ← okOr (checkedDiv pool5 100) (.game .ArithmeticOverflow)
  let parts ←
    if lobby.commissionTakenDraw = false then do
      let shares ← drawCommissionValues totalCommission lobby.referrer.isSome
      let perPlayer ← commissionPerPlayer totalCommission
      pure (shares.1, shares.2, perPlayer)
    else do
      let perPlayer ← commissionPerPlayer totalCommission
      pure (0, 0, perPlayer)
  let refundAmount ← okOr (checkedSub lobby.betAmount parts.2.2) (.game .ArithmeticOverflow)
  let step ←
    if lobby.commissionTakenDraw = false then do
      let acc ← okOr (checkedAdd c.accumulatedCommission parts.1) (.game .ArithmeticOverflow)
      let vault1 ← okOr (checkedSub c.vaultBal parts.1) .lamportsOp
      let commVault1 ← okOr (checkedAdd c.commissionVaultBal parts.1) .lamportsOp
      let moved ← payReferrer lobby.referrer c.referrer parts.2.1 sys.rentMin acc vault1 commVault1
      pure (moved.1, moved.2.1, moved.2.2.1, moved.2.2.2,
        { lobby with commissionTakenDraw := true })
    else
      pure (c.accumulatedCommission, c.vaultBal, c.commissionVaultBal, c.referrer, lobby)
  let lobby1 := step.2.2.2.2
  let needed ← okOr (specAdd refundAmount sys.rentMin) .overflowAbort
  req (needed ≤ step.2.1) .InsufficientVaultBalance
  let vault2 ← okOr (checkedSub step.2.1 refundAmount) .lamportsOp
  let claimerBal1 ← okOr (checkedAdd c.claimerBal refundAmount) .lamportsOp
  let lobby2 :=
    if claimer = lobby.creator then { lobby1 with creatorClaimedDraw := some true }
    else { lobby1 with opponentClaimedDraw := some true }
  let lobby3 :=
    if lobby2.status = .InProgress then
      { lobby2 with status := .Draw, completedAt := some sys.now }
    else lobby2
  req (sys.rentMin ≤ vault2) .InsufficientVaultBalance
  pure { c with
    lobby := lobby3
    vaultBal := vault2
    commissionVaultBal := step.2.2.1
    claimerBal := claimerBal1
    referrer := step.2.2.2.1
    accumulatedCommission := step.1 }

/-- Embedding of cancel_game_timeout with its three-way branch on the lobby
status. -/
def cancelGameTimeout (c : CancelCtx) (sys : SysEnv) : Except Err CancelCtx := do
  let lobby := c.lobby
  req (c.cancellerKey = lobby.creator ∨ some c.cancellerKey = lobby.opponent)
    .OnlyParticipantsCanCancel
  match lobby.status with
  | .Waiting => do
    let threshold ← okOr (checkedAddI64 lobby.createdAt GAME_TIMEOUT_SECONDS)
      (.game .ArithmeticOverflow)
    req (threshold ≤ sys.now) .TimeoutNotReached
    req (c.creatorKey = lobby.creator) .InvalidCreator
    let refundAmount := lobby.betAmount
    let needed ← okOr (specAdd refundAmount sys.rentMin) .overflowAbort
    req (needed ≤ c.vaultBal) .InsufficientVaultBalance
    let vault1 ← okOr (checkedSub c.vaultBal refundAmount) .lamportsOp
    let creatorBal1 ← okOr (checkedAdd c.creatorBal refundAmount) .lamportsOp
    pure { c with
      vaultBal := vault1
      creatorBal := creatorBal1
      lobby := { lobby with status := .Cancelled } }
  | .InProgress => do
    let gameStart ← okOr lobby.gameStartedAt (.game .GameNotStarted)
    let threshold ← okOr (checkedAddI64 gameStart GAME_TIMEOUT_SECONDS)
      (.game .ArithmeticOverflow)
    req (threshold ≤ sys.now) .TimeoutNotReached
    let totalPool ← okOr (checkedMul lobby.betAmount 2) (.game .ArithmeticOverflow)
    let pool5 ← okOr (checkedMul totalPool 5) (.game .ArithmeticOverflow)
    let totalCommission ← okOr (checkedDiv pool5 100) (.game .ArithmeticOverflow)
    let shares ← drawCommissionValues totalCommission lobby.referrer.isSome
    let perPlayer ← commissionPerPlayer totalCommission
    let refundPerPlayer ← okOr (checkedSub lobby.betAmount perPlayer) (.game .ArithmeticOverflow)
    let needed ← okOr (specAdd totalPool sys.rentMin) .overflowAbort
    req (needed ≤ c.vaultBal) .InsufficientVaultBalance
    let acc ← okOr (checkedAdd c.accumulatedCommission shares.1) (.game .ArithmeticOverflow)
    let vault1 ← okOr (checkedSub c.vaultBal shares.1) .lamportsOp
    let commVault1 ← okOr (checkedAdd c.commissionVaultBal shares.1) .lamportsOp
    let step ← payReferrer lobby.referrer c.referrer shares.2 sys.rentMin acc vault1 commVault1
    req (c.creatorKey = lobby.creator) .InvalidCreator
    let vault2 ← okOr (checkedSub step.2.1 refundPerPlayer) .lamportsOp
    let creatorBal1 ← okOr (checkedAdd c.creatorBal refundPerPlayer) .lamportsOp
    let opponentKey ← okOr lobby.opponent (.game .OpponentNotFound)
    req (c.opponentKey = opponentKey) .InvalidOpponent
    let vault3 ← okOr (checkedSub vault2 refundPerPlayer) .lamportsOp
    let opponentBal1 ← okOr (checkedAdd c.opponentBal refundPerPlayer) .lamportsOp
    pure { c with
      vaultBal := vault3
      commissionVaultBal := step.2.2.1
      creatorBal := creatorBal1
      opponentBal := opponentBal1
      referrer := step.2.2.2
      accumulatedCommission := step.1
      lobby := { lobby with status := .Cancelled } }
  | .Completed => .error (.game .GameAlreadyCompleted)
  | .Cancelled => .error (.game .GameAlreadyCancelled)
  | .Draw => .error (.game .GameAlreadyCompleted)

/-- Embedding of claim_commission. -/
def claimCommission (c : ClaimCommissionCtx) (amount : Nat) (sys : SysEnv) :
    Except Err ClaimCommissionCtx := do
  req (amount ≤ c.accumulatedCommission) .InsufficientCommission
  let vaultBalance := c.commissionVaultBal
  req (amount ≤ vaultBalance) .InsufficientVaultBalance
  let acc ← okOr (checkedSub c.accumulatedCommission amount) (.game .ArithmeticOverflow)
  let remaining ← okOr (checkedSub vaultBalance amount) (.game .ArithmeticOverflow)
  req (sys.rentMin ≤ remaining) .InsufficientVaultBalance
  let commVault1 ← okOr (checkedSub vaultBalance amount) .lamportsOp
  let claimerBal1 ← okOr (checkedAdd c.claimerBal amount) .lamportsOp
  pure { accumulatedCommission := acc
         commissionVaultBal := commVault1
         claimerBal := claimerBal1 }

/-- Embedding of close_lobby: requires a terminal status and a vault balance
that is exactly the rent minimum, then reclaims it to the creator. -/
def closeLobby (c : CloseLobbyCtx) (sys : SysEnv) : Except Err CloseLobbyCtx := do
  req (c.lobby.status = .Completed ∨ c.lobby.status = .Cancelled ∨ c.lobby.status = .Draw)
    .GameNotFinished
  req (c.vaultBal = sys.rentMin) .VaultNotEmpty
  let vaultBalance := c.vaultBal
  let vault1 ← okOr (checkedSub c.vaultBal vaultBalance) .lamportsOp
  let creatorBal1 ← okOr (checkedAdd c.creatorBal vaultBalance) .lamportsOp
  pure { c with vaultBal := vault1, creatorBal := creatorBal1 }

/-- Persisted state after a claim_prize instruction: the handler result on
success, the untouched input accounts when the transaction was rolled back. -/
def applyClaimPrize (c : ClaimPrizeCtx) (gameSignature : List Nat) (nonce : Nat)
    (env : SigEnv) (sys : SysEnv) : ClaimPrizeCtx :=
  match claimPrize c gameSignature nonce env sys with
  | .ok c' => c'
  | .error _ => c

/-- Persisted state after a claim_draw_refund instruction. -/
def applyClaimDrawRefund (c : ClaimDrawCtx) (gameSignature : List Nat) (nonce : Nat)
    (env : SigEnv) (sys : SysEnv) : ClaimDrawCtx :=
  match claimDrawRefund c gameSignature nonce env sys with
  | .ok c' => c'
  | .error _ => c

/-- Persisted state after a cancel_game_timeout instruction. -/
def applyCancelGameTimeout (c : CancelCtx) (sys : SysEnv) : CancelCtx :=
  match cancelGameTimeout c sys with
  | .ok c' => c'
  | .error _ => c

/-- Persisted state after a claim_commission instruction. -/
def applyClaimCommission (c : ClaimCommissionCtx) (amount : Nat) (sys : SysEnv) :
    ClaimCommissionCtx :=
  match claimCommission c amount sys with
  | .ok c' => c'
  | .error _ => c

/-- Balance of the referrer account of a context, zero when absent. -/
def refBal (r : Option (Nat × Nat)) : Nat :=
  match r with
  | some ra => ra.2
  | none => 0

/-- Well-formed ed25519-program instruction data for the verifier: one
signature, all three ranges inline, public key at offset 16, signature at
48, message at 112. -/
def le16 (n : Nat) : List Nat := [n % 256, n / 256 % 256]

/-- Instruction data builder used to exercise the verifier on concrete
transactions. -/
def mkEdData (pk sig msg : List Nat) : List Nat :=
  [1, 0] ++ le16 48 ++ le16 65535 ++ le16 16 ++ le16 65535 ++
    le16 112 ++ le16 msg.length ++ le16 65535 ++ pk ++ sig ++ msg

/-- Transaction environment whose instruction 0 is a well-formed ed25519
verification of the given message by BACKEND_AUTHORITY, with the program
instruction at index 1. -/
def mkSigEnv (sig msg : List Nat) : SigEnv :=
  { instructions := [⟨ED25519_PROGRAM_ID, mkEdData (pubkeyBytes BACKEND_AUTHORITY) sig msg⟩]
    currentIndex := 1 }

/-- Total commission of a settled round as a function of the bet: five
percent of the doubled bet, rounded down. -/
def totalCommissionOf (betAmount : Nat) : Nat := betAmount * 2 * 5 / 100

/-- Monadic success of a bind decomposes into success of both stages. -/
@[simp] theorem bind_ok_iff {x : Except Err α} {f : α → Except Err β} {c' : β} :
    (x >>= f) = .ok c' ↔ ∃ a, x = .ok a ∧ f a = .ok c' := by
  cases x <;> simp [Bind.bind, Except.bind]

/-- Mapped success decomposes likewise. -/
@[simp] theorem map_ok_iff {x : Except Err α} {g : α → β} {c' : β} :
    (g <$> x) = .ok c' ↔ ∃ a, x = .ok a ∧ g a = c' := by
  cases x <;> simp [Functor.map, Except.map]

/-- Success of okOr is success of the underlying option. -/
@[simp] theorem okOr_ok_iff {o : Option α} {e : Err} {a : α} :
    okOr o e = .ok a ↔ o = some a := by
  cases o <;> simp [okOr]

/-- Success of a require is its condition. -/
@[simp] theorem req_ok_iff {b : Prop} [Decidable b] {e : GameError} {u : Unit} :
    req b e = .ok u ↔ b := by
  unfold req
  split <;> simp_all

/-- Pure success pins the value. -/
@[simp] theorem purE_ok_iff {x c' : α} : (pure x : Except Err α) = .ok c' ↔ x = c' := by
  simp [pure, Except.pure]

/-- A conditional at the monadic level pushes through bind. -/
@[simp] theorem iteBind {c : Prop} [Decidable c] {x y : Except Err α}
    {f : α → Except Err β} :
    ((if c then x else y) >>= f) = if c then (x >>= f) else (y >>= f) := by
  split <;> rfl

/-- Success of a conditional splits on the condition. -/
@[simp] theorem iteExc_ok_iff {c : Prop} [Decidable c] {x y : Except Err α} {c' : α} :
    (if c then x else y) = .ok c' ↔ (c ∧ x = .ok c') ∨ (¬c ∧ y = .ok c') := by
  split <;> simp_all

/-- Success condition of checked u64 addition. -/
@[simp] theorem checkedAdd_eq_some {a b x : Nat} :
    checkedAdd a b = some x ↔ a + b < U64_MOD ∧ x = a + b := by
  unfold checkedAdd
  split <;> simp_all <;> omega

/-- Success condition of checked u64 subtraction. -/
@[simp] theorem checkedSub_eq_some {a b x : Nat} :
    checkedSub a b = some x ↔ b ≤ a ∧ x = a - b := by
  unfold checkedSub
  split <;> simp_all <;> omega

/-- Success condition of checked u64 multiplication. -/
@[simp] theorem checkedMul_eq_some {a b x : Nat} :
    checkedMul a b = some x ↔ a * b < U64_MOD ∧ x = a * b := by
  unfold checkedMul
  split <;> simp_all [eq_comm]

/-- Success condition of checked u64 division. -/
@[simp] theorem checkedDiv_eq_some {a b x : Nat} :
    checkedDiv a b = some x ↔ b ≠ 0 ∧ x = a / b := by
  unfold checkedDiv
  split <;> simp_all <;> omega

/-- Success condition of checked u64 remainder. -/
@[simp] theorem checkedRem_eq_some {a b x : Nat} :
    checkedRem a b = some x ↔ b ≠ 0 ∧ x = a % b := by
  unfold checkedRem
  split <;> simp_all <;> omega

/-- Success condition of the spec-modelled plain addition. -/
@[simp] theorem specAdd_eq_some {a b x : Nat} :
    specAdd a b = some x ↔ a + b < U64_MOD ∧ x = a + b := by
  unfold specAdd
  split <;> simp_all <;> omega

/-- Success condition of checked i64 addition. -/
@[simp] theorem checkedAddI64_eq_some {a b x : Int} :
    checkedAddI64 a b = some x ↔ (I64_MIN ≤ a + b ∧ a + b ≤ I64_MAX) ∧ x = a + b := by
  unfold checkedAddI64
  split <;> simp_all <;> omega

/-- Everything the prize commission split guarantees on success: the two
shares recombine to the full commission, and with no referrer the platform
takes it whole. -/
theorem prizeCommissionSplit_ok_elim {tc : Nat} {hasRef : Bool} {out : Nat × Nat}
    (h : prizeCommissionSplit tc hasRef = .ok out) :
    out.1 + out.2 = tc ∧ (hasRef = false → out = (tc, 0)) := by
  unfold prizeCommissionSplit at h
  cases hasRef <;> simp [and_assoc] at h
  case false => simp [← h]
  case true =>
    obtain ⟨h1, h2, h3, rfl⟩ := h
    simp
    omega

/-- Everything the two-claim commission split guarantees on success: the
shares recombine to the commission minus its parity remainder, and with no
referrer the platform takes all of that. -/
theorem drawCommissionValues_ok_elim {tc : Nat} {hasRef : Bool} {out : Nat × Nat}
    (h : drawCommissionValues tc hasRef = .ok out) :
    out.1 + out.2 = tc - tc % 2 ∧ (hasRef = false → out = (tc - tc % 2, 0)) := by
  unfold drawCommissionValues at h
  cases hasRef <;> simp [and_assoc] at h
  case false =>
    obtain ⟨h1, rfl⟩ := h
    simp
    try omega
  case true =>
    obtain ⟨rfl⟩ := h
    simp
    try omega

/-- Per-player deduction on success: the ceiling half, with the increment
in range. -/
theorem commissionPerPlayer_ok_elim {tc p : Nat}
    (h : commissionPerPlayer tc = .ok p) :
    p = (tc + 1) / 2 ∧ tc + 1 < U64_MOD := by
  unfold commissionPerPlayer at h
  simp [and_assoc] at h
  obtain ⟨h1, rfl⟩ := h
  exact ⟨rfl, h1⟩

/-- Everything the referrer-payment block guarantees on success: lamports
are conserved between the vault, the commission vault and the referrer
account; with no stored referrer the block is the identity; with a stored
referrer the vault pays out exactly the referrer share; and the accumulator
either stays or grows by that share. -/
theorem payReferrer_ok_elim {lr : Option Nat} {ra : Option (Nat × Nat)}
    {rc rm acc vault cv : Nat} {out : Nat × Nat × Nat × Option (Nat × Nat)}
    (h : payReferrer lr ra rc rm acc vault cv = .ok out) :
    out.2.2.1 + refBal out.2.2.2 + out.2.1 = cv + refBal ra + vault ∧
    (lr = none → out = (acc, vault, cv, ra)) ∧
    (lr ≠ none → rc ≤ vault ∧ out.2.1 + rc = vault) ∧
    (out.1 = acc ∨ out.1 = acc + rc) := by
  unfold payReferrer at h
  cases lr with
  | none =>
    simp at h
    simp [← h]
  | some rk =>
    cases ra with
    | none =>
      simp [and_assoc] at h
      obtain ⟨h1, h2, h3, rfl⟩ := h
      simp [refBal]
      omega
    | some rap =>
      simp [and_assoc] at h
      obtain ⟨hkey, h⟩ := h
      rcases h with ⟨hviable, h1, h2, rfl⟩ | ⟨hnv1, hnv2, h1, h2, h3, rfl⟩
      · simp [refBal]
        omega
      · simp [refBal]
        omega

/-- Everything a successful claim_draw_refund guarantees: the status and
participant guards held, the per-player deduction (ceiling half of the
commission) fit under the bet, the claimer gained exactly the refund, the
bet and the one-shot commission latch persist, a claim running with the
latch already set moves no commission at all, and every checked operation
on the success path stayed in u64 range. -/
theorem claimDrawRefund_ok_elim {c : ClaimDrawCtx} {sig : List Nat} {nonce : Nat}
    {env : SigEnv} {sys : SysEnv} {c' : ClaimDrawCtx}
    (h : claimDrawRefund c sig nonce env sys = .ok c') :
    (c.lobby.status = .InProgress ∨ c.lobby.status = .Draw) ∧
    (c.claimerKey = c.lobby.creator ∨ some c.claimerKey = c.lobby.opponent) ∧
    (totalCommissionOf c.lobby.betAmount + 1) / 2 ≤ c.lobby.betAmount ∧
    c'.claimerBal = c.claimerBal +
      (c.lobby.betAmount - (totalCommissionOf c.lobby.betAmount + 1) / 2) ∧
    c'.lobby.betAmount = c.lobby.betAmount ∧
    c'.lobby.commissionTakenDraw = true ∧
    (c.lobby.commissionTakenDraw = true →
      c'.accumulatedCommission = c.accumulatedCommission ∧
      c'.commissionVaultBal = c.commissionVaultBal ∧
      c'.referrer = c.referrer) ∧
    c.lobby.betAmount * 2 < U64_MOD ∧ c.lobby.betAmount * 2 * 5 < U64_MOD ∧
    c.claimerBal + (c.lobby.betAmount - (totalCommissionOf c.lobby.betAmount + 1) / 2) <
      U64_MOD := by
  unfold totalCommissionOf
  unfold claimDrawRefund at h
  by_cases hflag : c.lobby.commissionTakenDraw = false
  · by_cases hside : c.claimerKey = c.lobby.creator
    · simp [hflag, hside, and_assoc] at h
      obtain ⟨hstat, hopp, hcl, hsgn, hlen, ⟨u, hver⟩, hmul2, hmul10, a, b, hdcv, p, hcpp,
        hple, hacc, hav, hcv, a2, a3, a4, b1, hpay, hspec, hneed, hble, hcbal, hrent2, hc'⟩ := h
      obtain ⟨hp, hplt⟩ := commissionPerPlayer_ok_elim hcpp
      subst hc'
      subst hp
      refine ⟨hstat, Or.inl hside, hple, rfl, ?_, ?_, ?_, hmul2, hmul10, hcbal⟩
      · simp [apply_ite Lobby.betAmount]
      · simp [apply_ite Lobby.commissionTakenDraw]
      · intro hx
        rw [hx] at hflag
        exact absurd hflag (by simp)
    · simp [hflag, hside, and_assoc] at h
      obtain ⟨hstat, hpart, hopp, hcl, hsgn, hlen, ⟨u, hver⟩, hmul2, hmul10, a, b, hdcv, p, hcpp,
        hple, hacc, hav, hcv, a2, a3, a4, b1, hpay, hspec, hneed, hble, hcbal, hrent2, hc'⟩ := h
      obtain ⟨hp, hplt⟩ := commissionPerPlayer_ok_elim hcpp
      subst hc'
      subst hp
      refine ⟨hstat, Or.inr hpart, hple, rfl, ?_, ?_, ?_, hmul2, hmul10, hcbal⟩
      · simp [apply_ite Lobby.betAmount]
      · simp [apply_ite Lobby.commissionTakenDraw]
      · intro hx
        rw [hx] at hflag
        exact absurd hflag (by simp)
  · simp at hflag
    by_cases hside : c.claimerKey = c.lobby.creator
    · simp [hflag, hside, and_assoc] at h
      obtain ⟨hstat, hopp, hcl, hsgn, hlen, ⟨u, hver⟩, hmul2, hmul10, p, hcpp,
        hple, hspec, hneed, hble, hcbal, hrent2, hc'⟩ := h
      obtain ⟨hp, hplt⟩ := commissionPerPlayer_ok_elim hcpp
      subst hc'
      subst hp
      refine ⟨hstat, Or.inl hside, hple, rfl, ?_, ?_, ?_, hmul2, hmul10, hcbal⟩
      · simp [apply_ite Lobby.betAmount]
      · simp [apply_ite Lobby.commissionTakenDraw, hflag]
      · intro hx
        exact ⟨rfl, rfl, rfl⟩
    · simp [hflag, hside, and_assoc] at h
      obtain ⟨hstat, hpart, hopp, hcl, hsgn, hlen, ⟨u, hver⟩, hmul2, hmul10, p, hcpp,
        hple, hspec, hneed, hble, hcbal, hrent2, hc'⟩ := h
      obtain ⟨hp, hplt⟩ := commissionPerPlayer_ok_elim hcpp
      subst hc'
      subst hp
      refine ⟨hstat, Or.inr hpart, hple, rfl, ?_, ?_, ?_, hmul2, hmul10, hcbal⟩
      · simp [apply_ite Lobby.betAmount]
      · simp [apply_ite Lobby.commissionTakenDraw, hflag]
      · intro hx
        exact ⟨rfl, rfl, rfl⟩


/-- Everything a successful claim_prize guarantees: guards held, the winner
gained the pool minus the total commission, the commission vault, referrer
and winner together gained exactly the pool the vault lost, with no
referrer the accumulator grew by the whole commission, and every checked
operation on the success path stayed in u64 range. -/
theorem claimPrize_ok_elim {c : ClaimPrizeCtx} {sig : List Nat} {nonce : Nat}
    {env : SigEnv} {sys : SysEnv} {c' : ClaimPrizeCtx}
    (h : claimPrize c sig nonce env sys = .ok c') :
    c.lobby.status = .InProgress ∧ c.lobby.winner = none ∧
    c'.winnerBal = c.winnerBal + (c.lobby.betAmount * 2 - totalCommissionOf c.lobby.betAmount) ∧
    totalCommissionOf c.lobby.betAmount ≤ c.lobby.betAmount * 2 ∧
    c'.commissionVaultBal + refBal c'.referrer + c'.winnerBal =
      c.commissionVaultBal + refBal c.referrer + c.winnerBal + c.lobby.betAmount * 2 ∧
    c'.vaultBal + c.lobby.betAmount * 2 = c.vaultBal ∧
    c.lobby.betAmount * 2 + sys.rentMin ≤ c.vaultBal ∧
    (c.lobby.referrer = none →
      c'.accumulatedCommission = c.accumulatedCommission + totalCommissionOf c.lobby.betAmount ∧
      c.accumulatedCommission + totalCommissionOf c.lobby.betAmount < U64_MOD) ∧
    c.lobby.betAmount * 2 < U64_MOD ∧ c.lobby.betAmount * 2 * 5 < U64_MOD ∧
    c.lobby.betAmount * 2 + sys.rentMin < U64_MOD ∧
    c.winnerBal + (c.lobby.betAmount * 2 - totalCommissionOf c.lobby.betAmount) < U64_MOD := by
  unfold totalCommissionOf
  unfold claimPrize at h
  simp [and_assoc] at h
  obtain ⟨hstat, hwin, hpart, hsgn, hlen, ⟨u, hver⟩, hmul2, hmul10, a, b, hsplit, htcle,
    hacc, hrent, hvge, hav, hcv, a1, a2, a3, b1, hpay, hple2, hwb, hrent2, hc'⟩ := h
  obtain ⟨hab, hnone⟩ := prizeCommissionSplit_ok_elim hsplit
  obtain ⟨hcons, hid, hsome, horacc⟩ := payReferrer_ok_elim hpay
  dsimp only at hcons hid hsome horacc
  subst hc'
  cases href : c.lobby.referrer with
  | none =>
    have hidv := hid href
    simp [Prod.ext_iff] at hidv
    obtain ⟨e1, e2, e3, e4⟩ := hidv
    have hab2 : a = c.lobby.betAmount * 2 * 5 / 100 ∧ b = 0 := by
      have := hnone (by simp [href])
      simp [Prod.ext_iff] at this
      exact this
    have hrb : refBal b1 = refBal c.referrer := by rw [e4]
    refine ⟨hstat, hwin, rfl, htcle, ?_, ?_, hvge, ?_, hmul2, hmul10, hrent, hwb⟩
    · dsimp only
      omega
    · dsimp only
      omega
    · intro hx
      dsimp only
      omega
  | some rk =>
    have hs := hsome (by simp [href])
    obtain ⟨hrc, hvr⟩ := hs
    refine ⟨hstat, hwin, rfl, htcle, ?_, ?_, hvge, ?_, hmul2, hmul10, hrent, hwb⟩
    · dsimp only
      omega
    · dsimp only
      omega
    · intro hx
      simp [href] at hx


/-- Everything a successful cancel_game_timeout guarantees: the canceller
was a participant, the round ended Cancelled, a Waiting cancel happened at
or after the timeout and refunded the creator the full bet with no
commission touched, and an InProgress cancel drained the vault by the pool
minus twice the commission parity remainder while paying both players the
bet minus the ceiling half-commission. -/
theorem cancelGameTimeout_ok_elim {c : CancelCtx} {sys : SysEnv} {c' : CancelCtx}
    (h : cancelGameTimeout c sys = .ok c') :
    (c.cancellerKey = c.lobby.creator ∨ some c.cancellerKey = c.lobby.opponent) ∧
    c'.lobby.status = .Cancelled ∧
    (c.lobby.status = .Waiting →
      c.lobby.createdAt + GAME_TIMEOUT_SECONDS ≤ sys.now ∧
      c'.creatorBal = c.creatorBal + c.lobby.betAmount ∧
      c'.vaultBal + c.lobby.betAmount = c.vaultBal ∧
      c.lobby.betAmount + sys.rentMin ≤ c.vaultBal ∧
      c'.accumulatedCommission = c.accumulatedCommission ∧
      c'.commissionVaultBal = c.commissionVaultBal ∧
      c.lobby.betAmount + sys.rentMin < U64_MOD ∧
      c.creatorBal + c.lobby.betAmount < U64_MOD) ∧
    (c.lobby.status = .InProgress →
      c'.vaultBal + (c.lobby.betAmount * 2 - 2 * (totalCommissionOf c.lobby.betAmount % 2)) =
        c.vaultBal ∧
      c.lobby.betAmount * 2 + sys.rentMin ≤ c.vaultBal ∧
      c'.creatorBal = c.creatorBal +
        (c.lobby.betAmount - (totalCommissionOf c.lobby.betAmount + 1) / 2) ∧
      c'.opponentBal = c.opponentBal +
        (c.lobby.betAmount - (totalCommissionOf c.lobby.betAmount + 1) / 2) ∧
      c.lobby.betAmount * 2 < U64_MOD ∧ c.lobby.betAmount * 2 * 5 < U64_MOD ∧
      c.lobby.betAmount * 2 + sys.rentMin < U64_MOD) := by
  unfold totalCommissionOf
  unfold cancelGameTimeout at h
  cases hst : c.lobby.status
  case Completed => simp [hst] at h
  case Cancelled => simp [hst] at h
  case Draw => simp [hst] at h
  case Waiting =>
    simp [hst, and_assoc] at h
    obtain ⟨hpartic, hi1, hi2, htime, hck, hov1, hvge, hble, hcb, hc'⟩ := h
    subst hc'
    refine ⟨hpartic, rfl, ?_, ?_⟩
    · intro hx
      dsimp only
      refine ⟨htime, rfl, by omega, hvge, rfl, rfl, hov1, hcb⟩
    · intro hx
      exact absurd hx (by simp)
  case InProgress =>
    simp [hst, and_assoc] at h
    obtain ⟨hpartic, gs, hgs, hi1, hi2, htime, hmul2, hmul10, a, b, hdcv, p, hcpp, hple,
      hrentlt, hvge, hacc, hav, hcv, a2, a3, a4, b1, hpay, hck, hble, hcb, opp, hopp,
      hok, hble2, hob, hc'⟩ := h
    obtain ⟨hab, hbnone⟩ := drawCommissionValues_ok_elim hdcv
    obtain ⟨hp, hplt⟩ := commissionPerPlayer_ok_elim hcpp
    obtain ⟨hcons, hid, hsome, horacc⟩ := payReferrer_ok_elim hpay
    dsimp only at hab hcons hid hsome horacc
    subst hc'
    subst hp
    have ha3 : a3 + a + b = c.vaultBal := by
      cases href : c.lobby.referrer with
      | none =>
        have hidv := hid href
        simp [Prod.ext_iff] at hidv
        have hb0 := hbnone (by simp [href])
        simp [Prod.ext_iff] at hb0
        omega
      | some rk =>
        have hs := hsome (by simp [href])
        omega
    refine ⟨hpartic, rfl, ?_, ?_⟩
    · intro hx
      exact absurd hx (by simp)
    · intro hx
      dsimp only
      refine ⟨by omega, hvge, rfl, rfl, hmul2, hmul10, hrentlt⟩


/-- Everything a successful claim_commission guarantees: the amount was
covered by the accumulator and by the vault above its reserve, and exactly
that amount moved from both trackers to the claimer. -/
theorem claimCommission_ok_elim {c : ClaimCommissionCtx} {amount : Nat} {sys : SysEnv}
    {c' : ClaimCommissionCtx} (h : claimCommission c amount sys = .ok c') :
    amount ≤ c.accumulatedCommission ∧ amount + sys.rentMin ≤ c.commissionVaultBal ∧
    c'.accumulatedCommission + amount = c.accumulatedCommission ∧
    c'.commissionVaultBal + amount = c.commissionVaultBal ∧
    c'.claimerBal = c.claimerBal + amount ∧
    c.claimerBal + amount < U64_MOD := by
  unfold claimCommission at h
  simp [and_assoc] at h
  obtain ⟨h1, h2, h3, h4, h5, h6, h7, rfl⟩ := h
  dsimp only
  refine ⟨h1, by omega, by omega, by omega, rfl, h7⟩

/-- Everything a successful close_lobby guarantees: terminal status, a vault
holding exactly the reserve, and the whole vault balance reclaimed to the
creator. -/
theorem closeLobby_ok_elim {c : CloseLobbyCtx} {sys : SysEnv} {c' : CloseLobbyCtx}
    (h : closeLobby c sys = .ok c') :
    (c.lobby.status = .Completed ∨ c.lobby.status = .Cancelled ∨ c.lobby.status = .Draw) ∧
    c.vaultBal = sys.rentMin ∧ c'.vaultBal = 0 ∧
    c'.creatorBal = c.creatorBal + c.vaultBal ∧
    c.creatorBal + c.vaultBal < U64_MOD := by
  unfold closeLobby at h
  simp [and_assoc] at h
  obtain ⟨h1, h2, h3, rfl⟩ := h
  dsimp only
  refine ⟨h1, h2, by omega, rfl, h3⟩


/-- Message byte range embedded in the ed25519 instruction that precedes the
current one, as addressed by its offsets record. -/
def attestedMessage (env : SigEnv) : Option (List Nat) :=
  match env.instructions.get? (env.currentIndex - 1) with
  | none => none
  | some inst =>
    some (listSlice inst.data (readLE16 inst.data 10)
      (readLE16 inst.data 10 + readLE16 inst.data 12))

/-- A successful verification pins the verified message to the byte range
embedded in the co-located ed25519 instruction. -/
theorem verify_ok_attestedMessage {env : SigEnv} {pk m s : List Nat} {u : Unit}
    (h : verifyEd25519Signature env pk m s = .ok u) :
    attestedMessage env = some m := by
  unfold verifyEd25519Signature at h
  simp [and_assoc] at h
  obtain ⟨hidx, inst, hinst, h1, h2, h3, h4, h5, h6, h7, h8, h9, h10, h11, hmsg, hrest⟩ := h
  unfold attestedMessage
  simp only [List.get?_eq_getElem?, hinst]
  simp [hmsg]

/-- Heads of the two message constructions differ: a prize message starts
with the letter g, a draw message with the letter d. -/
theorem gameMessage_head {i : String} {w n : Nat} :
    (gameMessage i w n).data.head? = some 'g' := by
  unfold gameMessage
  simp [String.data_append]

/-- Head of a draw message. -/
theorem drawMessage_head {i : String} {c n : Nat} :
    (drawMessage i c n).data.head? = some 'd' := by
  unfold drawMessage
  simp [String.data_append]


/-- Result discriminator mirroring whether the instruction succeeded. -/
def isOk (x : Except Err α) : Bool :=
  match x with
  | .ok _ => true
  | .error _ => false

/-- Chain environment of the concrete runs: the rent-exempt minimum of a
zero-byte account on mainnet and an arbitrary clock reading. -/
def exSys : SysEnv := ⟨890880, 5000⟩

/-- A concrete 64-byte signature blob. -/
def exSig : List Nat := List.replicate 64 7

/-- In-progress lobby for the prize scenario: bet 10_000_000, no referrer. -/
def prizeLobby : Lobby :=
  ⟨"p1", 1, some 2, 10000000, .InProgress, none, none, none, none, false, 100, some 200, none⟩

/-- Transaction carrying a valid backend attestation of the prize message. -/
def prizeEnv : SigEnv := mkSigEnv exSig (strBytes (gameMessage "p1" 1 3))

/-- Accounts for the prize claim: vault holds the pool plus the reserve. -/
def prizeCtx : ClaimPrizeCtx := ⟨prizeLobby, 20890880, 890880, 1, 5, true, none, 11⟩

/-- Persisted state of the concrete prize claim. -/
def prizeRes : ClaimPrizeCtx := applyClaimPrize prizeCtx exSig 3 prizeEnv exSys

/-- Prize context whose round is already Completed. -/
def completedCtx : ClaimPrizeCtx :=
  ⟨{ prizeLobby with status := .Completed, winner := some 1 }, 890880, 890880, 1, 5, true,
    none, 11⟩

/-- In-progress lobby for the draw scenario: bet 10_000_010 makes the total
commission odd. -/
def drawLobby : Lobby :=
  ⟨"d1", 1, some 2, 10000010, .InProgress, none, none, none, none, false, 100, some 200, none⟩

/-- Attestation for the creator's draw claim. -/
def drawEnvA : SigEnv := mkSigEnv exSig (strBytes (drawMessage "d1" 1 1))

/-- Accounts for the creator's draw claim. -/
def drawCtxA : ClaimDrawCtx := ⟨drawLobby, 20890900, 890880, 1, 0, true, none, 0⟩

/-- Persisted state after the creator's draw claim. -/
def drawResA : ClaimDrawCtx := applyClaimDrawRefund drawCtxA exSig 1 drawEnvA exSys

/-- Attestation for the opponent's draw claim. -/
def drawEnvB : SigEnv := mkSigEnv exSig (strBytes (drawMessage "d1" 2 2))

/-- Accounts for the opponent's draw claim, taken from the persisted state
of the first claim. -/
def drawCtxB : ClaimDrawCtx :=
  ⟨drawResA.lobby, drawResA.vaultBal, drawResA.commissionVaultBal, 2, 0, true, none,
    drawResA.accumulatedCommission⟩

/-- Persisted state after the opponent's draw claim. -/
def drawResB : ClaimDrawCtx := applyClaimDrawRefund drawCtxB exSig 2 drawEnvB exSys

/-- Waiting lobby for the timeout scenario. -/
def waitLobby : Lobby :=
  ⟨"w1", 1, none, 10000010, .Waiting, none, none, none, none, false, 100, none, none⟩

/-- Accounts for the Waiting-timeout cancel: vault holds the creator's bet
plus the reserve. -/
def waitCtx : CancelCtx := ⟨waitLobby, 10890890, 890880, 1, 0, 2, 0, 1, none, 0⟩

/-- Persisted state after the Waiting-timeout cancel. -/
def waitRes : CancelCtx := applyCancelGameTimeout waitCtx exSys

/-- Same accounts but with a round created too recently to cancel. -/
def waitEarlyCtx : CancelCtx := { waitCtx with lobby := { waitLobby with createdAt := 4000 } }

/-- In-progress lobby for the timeout scenario with odd commission. -/
def ipLobby : Lobby := { drawLobby with id := "c1" }

/-- Accounts for the in-progress timeout cancel: vault holds the pool plus
the reserve. -/
def ipCtx : CancelCtx := ⟨ipLobby, 20890900, 890880, 1, 0, 2, 0, 1, none, 0⟩

/-- Persisted state after the in-progress timeout cancel. -/
def ipRes : CancelCtx := applyCancelGameTimeout ipCtx exSys

/-- Closing context for the cancelled odd-commission round. -/
def ipCloseCtx : CloseLobbyCtx := ⟨ipRes.lobby, ipRes.vaultBal, 0⟩

/-- Commission-claim accounts covering a 300-lamport withdrawal. -/
def commCtx : ClaimCommissionCtx := ⟨500, 891580, 1⟩

/-- Persisted state after the 300-lamport withdrawal. -/
def commRes : ClaimCommissionCtx := applyClaimCommission commCtx 300 exSys

/-- Commission-claim accounts whose accumulator cannot cover the amount. -/
def commLowCtx : ClaimCommissionCtx := ⟨100, 891580, 1⟩

/-- Terminal round whose vault holds exactly the reserve. -/
def closeOkCtx : CloseLobbyCtx := ⟨{ waitLobby with status := .Cancelled }, 890880, 9⟩

/-- Terminal round whose vault holds less than the reserve. -/
def closeLowCtx : CloseLobbyCtx := ⟨{ waitLobby with status := .Cancelled }, 0, 9⟩

/-- Transaction carrying a valid backend attestation of a prize message,
used against the draw path. -/
def gameEnv : SigEnv := mkSigEnv exSig (strBytes (gameMessage "g1" 1 1))


set_option maxRecDepth 8192

/-- C3: claimPrize is effective at most once per round: once the winner is
recorded and the round is Completed, any further claimPrize call fails with
GameNotInProgress and the persisted accounts are exactly the input
accounts. -/
theorem C3_claim_prize_at_most_once (c : ClaimPrizeCtx) (sig : List Nat) (nonce : Nat)
    (env : SigEnv) (sys : SysEnv)
    (hw : c.lobby.winner.isSome = true) (hs : c.lobby.status = .Completed) :
    claimPrize c sig nonce env sys = .error (.game .GameNotInProgress) ∧
    applyClaimPrize c sig nonce env sys = c := by
  have herr : claimPrize c sig nonce env sys = .error (.game .GameNotInProgress) := by
    unfold claimPrize
    simp [hs, req, Bind.bind, Except.bind]
  refine ⟨herr, ?_⟩
  unfold applyClaimPrize
  rw [herr]

/-- C3 witness: a Completed round rejects a further prize claim and keeps
its accounts. -/
theorem C3_witness :
    claimPrize completedCtx exSig 3 prizeEnv exSys = .error (.game .GameNotInProgress) ∧
    applyClaimPrize completedCtx exSig 3 prizeEnv exSys = completedCtx :=
  C3_claim_prize_at_most_once completedCtx exSig 3 prizeEnv exSys rfl rfl

/-- C4: on every successful claimPrize the platform share, the referrer
share and the winner payout together drain exactly the pool of 2 x stake
out of the vault; concretely for stake 10_000_000 and no referrer the
winner receives 19_000_000 and the accumulator grows by 1_000_000. -/
theorem C4_prize_split_conservation (c : ClaimPrizeCtx) (sig : List Nat) (nonce : Nat)
    (env : SigEnv) (sys : SysEnv) (c' : ClaimPrizeCtx)
    (h : claimPrize c sig nonce env sys = .ok c') :
    c'.commissionVaultBal + refBal c'.referrer + c'.winnerBal =
      c.commissionVaultBal + refBal c.referrer + c.winnerBal + c.lobby.betAmount * 2 ∧
    c'.vaultBal + c.lobby.betAmount * 2 = c.vaultBal ∧
    (c.lobby.betAmount = 10000000 → c.lobby.referrer = none →
      c'.winnerBal = c.winnerBal + 19000000 ∧
      c'.accumulatedCommission = c.accumulatedCommission + 1000000) := by
  obtain ⟨hstat, hwin, hwb, htcle, hcons, hvault, hvge, hrefnone, _, _, _, _⟩ :=
    claimPrize_ok_elim h
  refine ⟨hcons, hvault, ?_⟩
  intro hbet hrn
  obtain ⟨hacc, _⟩ := hrefnone hrn
  rw [hbet] at hwb hacc
  simp [totalCommissionOf] at hwb hacc
  exact ⟨by omega, by omega⟩

/-- C4 witness: the concrete stake 10_000_000 no-referrer claim pays the
winner 19_000_000 and accrues 1_000_000 of commission. -/
theorem C4_witness :
    prizeRes.winnerBal = prizeCtx.winnerBal + 19000000 ∧
    prizeRes.accumulatedCommission = prizeCtx.accumulatedCommission + 1000000 :=
  (C4_prize_split_conservation prizeCtx exSig 3 prizeEnv exSys prizeRes rfl).2.2 rfl rfl

/-- C5: across the two draw claims commission is settled exactly once: any
successful claim leaves the commissionTakenOnDraw latch set, and a
successful claim that starts with the latch already set moves nothing to
the commission vault or the referrer and leaves the accumulator
untouched. -/
theorem C5_commission_latch (c : ClaimDrawCtx) (sig : List Nat) (nonce : Nat)
    (env : SigEnv) (sys : SysEnv) (c' : ClaimDrawCtx)
    (h : claimDrawRefund c sig nonce env sys = .ok c') :
    c'.lobby.commissionTakenDraw = true ∧
    (c.lobby.commissionTakenDraw = false → c'.lobby.commissionTakenDraw = true) ∧
    (c.lobby.commissionTakenDraw = true →
      c'.accumulatedCommission = c.accumulatedCommission ∧
      c'.commissionVaultBal = c.commissionVaultBal ∧
      c'.referrer = c.referrer) := by
  obtain ⟨_, _, _, _, _, hflag, hinv, _⟩ := claimDrawRefund_ok_elim h
  exact ⟨hflag, fun _ => hflag, hinv⟩

/-- C5 witness: the concrete first draw claim sets the latch, and the
concrete second claim (latch already set) leaves accumulator, commission
vault and referrer untouched. -/
theorem C5_witness :
    drawResA.lobby.commissionTakenDraw = true ∧
    drawResB.accumulatedCommission = drawCtxB.accumulatedCommission ∧
    drawResB.commissionVaultBal = drawCtxB.commissionVaultBal := by
  have h1 := C5_commission_latch drawCtxA exSig 1 drawEnvA exSys drawResA rfl
  have h2 := C5_commission_latch drawCtxB exSig 2 drawEnvB exSys drawResB rfl
  have hset := h2.2.2 rfl
  exact ⟨h1.1, hset.1, hset.2.1⟩

/-- C2: settlement arithmetic is overflow-detected: every settlement
instruction that fails persists exactly its input accounts, and every one
that succeeds did so with all its arithmetic inside the u64 range (the
pool doubling and commission multiplication, the reserve additions of the
vault-balance checks, and the payout additions). -/
theorem C2_settlement_overflow_checked :
    (∀ (c : ClaimPrizeCtx) (sig : List Nat) (nonce : Nat) (env : SigEnv) (sys : SysEnv)
      (e : Err), claimPrize c sig nonce env sys = .error e →
      applyClaimPrize c sig nonce env sys = c) ∧
    (∀ (c : ClaimPrizeCtx) (sig : List Nat) (nonce : Nat) (env : SigEnv) (sys : SysEnv)
      (c' : ClaimPrizeCtx), claimPrize c sig nonce env sys = .ok c' →
      c.lobby.betAmount * 2 < U64_MOD ∧ c.lobby.betAmount * 2 * 5 < U64_MOD ∧
      c.lobby.betAmount * 2 + sys.rentMin < U64_MOD ∧
      c.winnerBal + (c.lobby.betAmount * 2 - totalCommissionOf c.lobby.betAmount) < U64_MOD) ∧
    (∀ (c : ClaimDrawCtx) (sig : List Nat) (nonce : Nat) (env : SigEnv) (sys : SysEnv)
      (e : Err), claimDrawRefund c sig nonce env sys = .error e →
      applyClaimDrawRefund c sig nonce env sys = c) ∧
    (∀ (c : ClaimDrawCtx) (sig : List Nat) (nonce : Nat) (env : SigEnv) (sys : SysEnv)
      (c' : ClaimDrawCtx), claimDrawRefund c sig nonce env sys = .ok c' →
      c.lobby.betAmount * 2 < U64_MOD ∧ c.lobby.betAmount * 2 * 5 < U64_MOD ∧
      c.claimerBal + (c.lobby.betAmount - (totalCommissionOf c.lobby.betAmount + 1) / 2) <
        U64_MOD) ∧
    (∀ (c : CancelCtx) (sys : SysEnv) (e : Err), cancelGameTimeout c sys = .error e →
      applyCancelGameTimeout c sys = c) ∧
    (∀ (c : CancelCtx) (sys : SysEnv) (c' : CancelCtx), cancelGameTimeout c sys = .ok c' →
      (c.lobby.status = .Waiting → c.lobby.betAmount + sys.rentMin < U64_MOD ∧
        c.creatorBal + c.lobby.betAmount < U64_MOD) ∧
      (c.lobby.status = .InProgress → c.lobby.betAmount * 2 < U64_MOD ∧
        c.lobby.betAmount * 2 * 5 < U64_MOD ∧
        c.lobby.betAmount * 2 + sys.rentMin < U64_MOD)) ∧
    (∀ (c : ClaimCommissionCtx) (amount : Nat) (sys : SysEnv) (e : Err),
      claimCommission c amount sys = .error e → applyClaimCommission c amount sys = c) ∧
    (∀ (c : ClaimCommissionCtx) (amount : Nat) (sys : SysEnv) (c' : ClaimCommissionCtx),
      claimCommission c amount sys = .ok c' → c.claimerBal + amount < U64_MOD) := by
  refine ⟨?_, ?_, ?_, ?_, ?_, ?_, ?_, ?_⟩
  · intro c sig nonce env sys e h
    unfold applyClaimPrize
    rw [h]
  · intro c sig nonce env sys c' h
    obtain ⟨_, _, _, _, _, _, _, _, hm2, hm10, hrent, hwb⟩ := claimPrize_ok_elim h
    exact ⟨hm2, hm10, hrent, hwb⟩
  · intro c sig nonce env sys e h
    unfold applyClaimDrawRefund
    rw [h]
  · intro c sig nonce env sys c' h
    obtain ⟨_, _, _, _, _, _, _, hm2, hm10, hcb⟩ := claimDrawRefund_ok_elim h
    exact ⟨hm2, hm10, hcb⟩
  · intro c sys e h
    unfold applyCancelGameTimeout
    rw [h]
  · intro c sys c' h
    obtain ⟨_, _, hwait, hip⟩ := cancelGameTimeout_ok_elim h
    constructor
    · intro hx
      obtain ⟨_, _, _, _, _, _, ho1, ho2⟩ := hwait hx
      exact ⟨ho1, ho2⟩
    · intro hx
      obtain ⟨_, _, _, _, ho1, ho2, ho3⟩ := hip hx
      exact ⟨ho1, ho2, ho3⟩
  · intro c amount sys e h
    unfold applyClaimCommission
    rw [h]
  · intro c amount sys c' h
    obtain ⟨_, _, _, _, _, hcb⟩ := claimCommission_ok_elim h
    exact hcb

/-- C2 witness: a failing claim on a Completed round persists its input
accounts unchanged, and the concrete successful commission withdrawal ran
inside the u64 range. -/
theorem C2_witness :
    applyClaimPrize completedCtx exSig 3 prizeEnv exSys = completedCtx ∧
    commCtx.claimerBal + 300 < U64_MOD :=
  ⟨C2_settlement_overflow_checked.1 completedCtx exSig 3 prizeEnv exSys
      (.game .GameNotInProgress) rfl,
    C2_settlement_overflow_checked.2.2.2.2.2.2.2 commCtx 300 exSys commRes rfl⟩


/-- C1 counterexample: with stake 10_000_010 the total commission is odd;
both draw claims succeed and each pays stake minus the ceiling half of the
commission, but the two refunds plus the total commission come to one
lamport less than the pool, refuting the claimed sum identity. -/
theorem C1_counterexample :
    claimDrawRefund drawCtxA exSig 1 drawEnvA exSys = .ok drawResA ∧
    claimDrawRefund drawCtxB exSig 2 drawEnvB exSys = .ok drawResB ∧
    drawCtxB.lobby = drawResA.lobby ∧
    drawCtxA.lobby.commissionTakenDraw = false ∧
    drawCtxA.claimerKey = drawCtxA.lobby.creator ∧
    some drawCtxB.claimerKey = drawCtxB.lobby.opponent ∧
    drawResA.claimerBal - drawCtxA.claimerBal =
      drawCtxA.lobby.betAmount - (totalCommissionOf drawCtxA.lobby.betAmount + 1) / 2 ∧
    drawResB.claimerBal - drawCtxB.claimerBal =
      drawCtxA.lobby.betAmount - (totalCommissionOf drawCtxA.lobby.betAmount + 1) / 2 ∧
    ¬(drawResA.claimerBal - drawCtxA.claimerBal + (drawResB.claimerBal - drawCtxB.claimerBal) +
        totalCommissionOf drawCtxA.lobby.betAmount = drawCtxA.lobby.betAmount * 2) := by
  refine ⟨rfl, rfl, rfl, rfl, rfl, rfl, rfl, rfl, ?_⟩
  decide

/-- C1 amended: for every round with an opponent joined and every pair of
successful claimDrawRefund calls on it (the second starting from the lobby
the first persisted), each claimer receives exactly stake minus the ceiling
half of the total commission, and the sum of both refunds plus the total
commission equals the pool minus the commission parity remainder (the odd
lamport stays in the holding vault). -/
theorem C1_draw_refund_amended (c1 : ClaimDrawCtx) (sig1 : List Nat) (n1 : Nat)
    (env1 : SigEnv) (c2 : ClaimDrawCtx) (sig2 : List Nat) (n2 : Nat) (env2 : SigEnv)
    (sys : SysEnv) (c1' c2' : ClaimDrawCtx)
    (h1 : claimDrawRefund c1 sig1 n1 env1 sys = .ok c1')
    (hglue : c2.lobby = c1'.lobby)
    (h2 : claimDrawRefund c2 sig2 n2 env2 sys = .ok c2')
    (hopp : c1.lobby.opponent.isSome = true)
    (hflag : c1.lobby.commissionTakenDraw = false) :
    c1'.claimerBal = c1.claimerBal +
      (c1.lobby.betAmount - (totalCommissionOf c1.lobby.betAmount + 1) / 2) ∧
    c2'.claimerBal = c2.claimerBal +
      (c1.lobby.betAmount - (totalCommissionOf c1.lobby.betAmount + 1) / 2) ∧
    (c1'.claimerBal - c1.claimerBal) + (c2'.claimerBal - c2.claimerBal) +
      totalCommissionOf c1.lobby.betAmount =
      c1.lobby.betAmount * 2 - totalCommissionOf c1.lobby.betAmount % 2 := by
  obtain ⟨_, _, hple1, hbal1, hbet1, _, _, _, _, _⟩ := claimDrawRefund_ok_elim h1
  obtain ⟨_, _, hple2, hbal2, hbet2, _, _, _, _, _⟩ := claimDrawRefund_ok_elim h2
  have hb2 : c2.lobby.betAmount = c1.lobby.betAmount := by rw [hglue, hbet1]
  rw [hb2] at hbal2 hple2
  simp only [totalCommissionOf] at hbal1 hbal2 hple1 hple2 ⊢
  omega

/-- C1 witness: the amended identity at the concrete odd-commission pair of
claims. -/
theorem C1_witness :
    drawResA.claimerBal = drawCtxA.claimerBal +
      (drawCtxA.lobby.betAmount - (totalCommissionOf drawCtxA.lobby.betAmount + 1) / 2) ∧
    drawResB.claimerBal = drawCtxB.claimerBal +
      (drawCtxA.lobby.betAmount - (totalCommissionOf drawCtxA.lobby.betAmount + 1) / 2) ∧
    (drawResA.claimerBal - drawCtxA.claimerBal) +
      (drawResB.claimerBal - drawCtxB.claimerBal) +
      totalCommissionOf drawCtxA.lobby.betAmount =
      drawCtxA.lobby.betAmount * 2 - totalCommissionOf drawCtxA.lobby.betAmount % 2 :=
  C1_draw_refund_amended drawCtxA exSig 1 drawEnvA drawCtxB exSig 2 drawEnvB exSys
    drawResA drawResB rfl rfl rfl rfl rfl

/-- C6 counterexample: a terminal round whose vault holds less than the
reserve does not exceed the reserve, yet closeRound fails with
VaultNotEmpty, refuting the claimed fails-iff-exceeds shape. -/
theorem C6_counterexample :
    closeLowCtx.lobby.status = .Cancelled ∧
    closeLowCtx.vaultBal < exSys.rentMin ∧
    closeLobby closeLowCtx exSys = .error (.game .VaultNotEmpty) :=
  ⟨rfl, by decide, rfl⟩

/-- C6 amended: for a round in terminal status closeRound succeeds exactly
when the vault balance equals the minimum-viability reserve (in particular
it fails whenever the balance exceeds the reserve, and also when it falls
below it), transferring the whole vault balance to the creator; for a
non-terminal round it always fails. -/
theorem C6_close_round_amended (c : CloseLobbyCtx) (sys : SysEnv) :
    ((c.lobby.status = .Completed ∨ c.lobby.status = .Cancelled ∨ c.lobby.status = .Draw) →
      (c.vaultBal ≠ sys.rentMin → isOk (closeLobby c sys) = false) ∧
      (c.vaultBal = sys.rentMin → c.creatorBal + c.vaultBal < U64_MOD →
        closeLobby c sys = .ok { c with
          vaultBal := 0
          creatorBal := c.creatorBal + c.vaultBal })) ∧
    (c.lobby.status ≠ .Completed ∧ c.lobby.status ≠ .Cancelled ∧ c.lobby.status ≠ .Draw →
      isOk (closeLobby c sys) = false) := by
  constructor
  · intro hterm
    constructor
    · intro hne
      cases hres : closeLobby c sys with
      | ok x => exact absurd (closeLobby_ok_elim hres).2.1 hne
      | error e => simp [isOk]
    · intro hv hov
      rw [hv] at hov
      unfold closeLobby
      simp [req, okOr, checkedSub, checkedAdd, hterm, hv, hov, Bind.bind, Except.bind,
        pure, Except.pure]
  · intro hnt
    cases hres : closeLobby c sys with
    | ok x =>
      rcases (closeLobby_ok_elim hres).1 with ht | ht | ht
      · exact absurd ht hnt.1
      · exact absurd ht hnt.2.1
      · exact absurd ht hnt.2.2
    | error e => simp [isOk]

/-- C6 witness: the concrete terminal round closes exactly at the reserve
and refuses to close one lamport above it. -/
theorem C6_witness :
    isOk (closeLobby { closeOkCtx with vaultBal := closeOkCtx.vaultBal + 1 } exSys) = false ∧
    closeLobby closeOkCtx exSys = .ok { closeOkCtx with
      vaultBal := 0
      creatorBal := closeOkCtx.creatorBal + closeOkCtx.vaultBal } := by
  refine ⟨?_, ?_⟩
  · exact ((C6_close_round_amended { closeOkCtx with vaultBal := closeOkCtx.vaultBal + 1 }
      exSys).1 (Or.inr (Or.inl rfl))).1 (by decide)
  · exact ((C6_close_round_amended closeOkCtx exSys).1 (Or.inr (Or.inl rfl))).2 rfl (by decide)

/-- C7: a Waiting round cannot be cancelled before createdAt plus the
3600-second timeout, and a successful Waiting cancel refunds the creator
the full stake, touches neither commission tracker, and moves the round to
Cancelled. -/
theorem C7_waiting_timeout_cancel (c : CancelCtx) (sys : SysEnv) (c' : CancelCtx)
    (hst : c.lobby.status = .Waiting) :
    (sys.now < c.lobby.createdAt + GAME_TIMEOUT_SECONDS →
      isOk (cancelGameTimeout c sys) = false) ∧
    (cancelGameTimeout c sys = .ok c' →
      c'.creatorBal = c.creatorBal + c.lobby.betAmount ∧
      c'.vaultBal + c.lobby.betAmount = c.vaultBal ∧
      c'.accumulatedCommission = c.accumulatedCommission ∧
      c'.commissionVaultBal = c.commissionVaultBal ∧
      c'.lobby.status = .Cancelled) := by
  constructor
  · intro hn
    cases hres : cancelGameTimeout c sys with
    | ok x =>
      obtain ⟨_, _, hwait, _⟩ := cancelGameTimeout_ok_elim hres
      obtain ⟨ht, _⟩ := hwait hst
      omega
    | error e => simp [isOk]
  · intro h
    obtain ⟨_, hcanc, hwait, _⟩ := cancelGameTimeout_ok_elim h
    obtain ⟨_, hcb, hv, _, hacc2, hcv2, _, _⟩ := hwait hst
    exact ⟨hcb, hv, hacc2, hcv2, hcanc⟩

/-- C7 witness: the concrete Waiting round rejects an early cancel and, once
timed out, refunds the full stake and ends Cancelled. -/
theorem C7_witness :
    isOk (cancelGameTimeout waitEarlyCtx exSys) = false ∧
    waitRes.creatorBal = waitCtx.creatorBal + waitCtx.lobby.betAmount ∧
    waitRes.lobby.status = .Cancelled := by
  have h1 := (C7_waiting_timeout_cancel waitEarlyCtx exSys waitRes rfl).1 (by decide)
  have h2 := (C7_waiting_timeout_cancel waitCtx exSys waitRes rfl).2 rfl
  exact ⟨h1, h2.1, h2.2.2.2.2⟩

/-- C8: claimCommission fails with no state change whenever the amount
exceeds the accumulator or the commission vault cannot cover it on top of
its reserve, and on success moves exactly the amount from both trackers to
the claimer. -/
theorem C8_claim_commission (c : ClaimCommissionCtx) (amount : Nat) (sys : SysEnv)
    (c' : ClaimCommissionCtx) :
    (c.accumulatedCommission < amount ∨ c.commissionVaultBal < amount + sys.rentMin →
      isOk (claimCommission c amount sys) = false ∧
      applyClaimCommission c amount sys = c) ∧
    (claimCommission c amount sys = .ok c' →
      c'.accumulatedCommission + amount = c.accumulatedCommission ∧
      c'.commissionVaultBal + amount = c.commissionVaultBal ∧
      c'.claimerBal = c.claimerBal + amount) := by
  constructor
  · intro hbad
    have herr : ∀ x, claimCommission c amount sys ≠ .ok x := by
      intro x hok
      obtain ⟨h1, h2, _⟩ := claimCommission_ok_elim hok
      omega
    cases hres : claimCommission c amount sys with
    | ok x => exact absurd hres (herr x)
    | error e =>
      refine ⟨by simp [isOk], ?_⟩
      unfold applyClaimCommission
      rw [hres]
  · intro h
    obtain ⟨_, _, h3, h4, h5, _⟩ := claimCommission_ok_elim h
    exact ⟨h3, h4, h5⟩

/-- C8 witness: the concrete under-funded withdrawal fails with unchanged
accounts and the concrete covered withdrawal moves exactly the amount. -/
theorem C8_witness :
    isOk (claimCommission commLowCtx 300 exSys) = false ∧
    applyClaimCommission commLowCtx 300 exSys = commLowCtx ∧
    commRes.accumulatedCommission + 300 = commCtx.accumulatedCommission ∧
    commRes.claimerBal = commCtx.claimerBal + 300 := by
  have h1 := (C8_claim_commission commLowCtx 300 exSys commRes).1 (Or.inl (by decide))
  have h2 := (C8_claim_commission commCtx 300 exSys commRes).2 rfl
  exact ⟨h1.1, h1.2, h2.1, h2.2.2⟩

/-- C9: prize and draw messages are distinct strings for all round ids,
identities and nonces (their namespaces differ in the first letter), so an
attestation verified for the prize message of one claim never verifies for
a draw message, nor the other way round. -/
theorem C9_message_namespaces (id1 id2 : String) (w cl n1 n2 : Nat) (env : SigEnv)
    (pk sig1 sig2 : List Nat) :
    gameMessage id1 w n1 ≠ drawMessage id2 cl n2 ∧
    (verifyEd25519Signature env pk (strBytes (gameMessage id1 w n1)) sig1 = .ok () →
      isOk (verifyEd25519Signature env pk (strBytes (drawMessage id2 cl n2)) sig2) = false) ∧
    (verifyEd25519Signature env pk (strBytes (drawMessage id2 cl n2)) sig2 = .ok () →
      isOk (verifyEd25519Signature env pk (strBytes (gameMessage id1 w n1)) sig1) = false) := by
  have hbytes : strBytes (gameMessage id1 w n1) ≠ strBytes (drawMessage id2 cl n2) := by
    intro he
    have hh := congrArg List.head? he
    rw [strBytes, strBytes, List.head?_map, List.head?_map, gameMessage_head,
      drawMessage_head] at hh
    simp at hh
  have hmain : gameMessage id1 w n1 ≠ drawMessage id2 cl n2 := by
    intro he
    exact hbytes (by rw [he])
  refine ⟨hmain, ?_, ?_⟩
  · intro hg
    cases hres : verifyEd25519Signature env pk (strBytes (drawMessage id2 cl n2)) sig2 with
    | ok u =>
      have hm1 := verify_ok_attestedMessage hg
      have hm2 := verify_ok_attestedMessage hres
      rw [hm1] at hm2
      exact absurd (Option.some.inj hm2) hbytes
    | error e => simp [isOk]
  · intro hd
    cases hres : verifyEd25519Signature env pk (strBytes (gameMessage id1 w n1)) sig1 with
    | ok u =>
      have hm1 := verify_ok_attestedMessage hd
      have hm2 := verify_ok_attestedMessage hres
      rw [hm1] at hm2
      exact absurd (Option.some.inj hm2).symm hbytes
    | error e => simp [isOk]

/-- C9 witness: an attestation environment built for a concrete prize
message verifies on the prize path and is rejected on the draw path. -/
theorem C9_witness :
    gameMessage "g1" 1 1 ≠ drawMessage "g1" 1 1 ∧
    isOk (verifyEd25519Signature gameEnv (pubkeyBytes BACKEND_AUTHORITY)
      (strBytes (drawMessage "g1" 1 1)) exSig) = false := by
  have hth := C9_message_namespaces "g1" "g1" 1 1 1 1 gameEnv
    (pubkeyBytes BACKEND_AUTHORITY) exSig exSig
  exact ⟨hth.1, hth.2.1 rfl⟩

/-- C10: an in-progress timeout cancel on a canonically funded vault (pool
plus reserve) leaves the vault at the reserve plus twice the commission
parity remainder, and when the total commission is odd the two retained
lamports make every subsequent closeRound on that round fail. -/
theorem C10_cancel_residual (c : CancelCtx) (sys : SysEnv) (c' : CancelCtx)
    (hst : c.lobby.status = .InProgress)
    (hvault : c.vaultBal = c.lobby.betAmount * 2 + sys.rentMin)
    (h : cancelGameTimeout c sys = .ok c') :
    c'.vaultBal = sys.rentMin + 2 * (totalCommissionOf c.lobby.betAmount % 2) ∧
    (totalCommissionOf c.lobby.betAmount % 2 = 1 →
      ∀ (cl : CloseLobbyCtx), cl.lobby = c'.lobby → cl.vaultBal = c'.vaultBal →
        isOk (closeLobby cl sys) = false) := by
  obtain ⟨_, hcanc, _, hip⟩ := cancelGameTimeout_ok_elim h
  obtain ⟨hv, hvge, _, _, _, _, _⟩ := hip hst
  have hresid : c'.vaultBal = sys.rentMin + 2 * (totalCommissionOf c.lobby.betAmount % 2) := by
    simp only [totalCommissionOf] at hv ⊢
    omega
  refine ⟨hresid, ?_⟩
  intro hodd cl hcll hcl
  cases hres : closeLobby cl sys with
  | ok x =>
    have hvr := (closeLobby_ok_elim hres).2.1
    rw [hcl, hresid] at hvr
    exact absurd hvr (by omega)
  | error e => simp [isOk]

/-- C10 witness: the concrete odd-commission cancel leaves the vault two
lamports above the reserve and its round can no longer be closed. -/
theorem C10_witness :
    ipRes.vaultBal = exSys.rentMin + 2 ∧
    isOk (closeLobby ipCloseCtx exSys) = false := by
  have hth := C10_cancel_residual ipCtx exSys ipRes rfl rfl rfl
  have hodd : totalCommissionOf ipCtx.lobby.betAmount % 2 = 1 := by decide
  refine ⟨?_, hth.2 hodd ipCloseCtx rfl rfl⟩
  rw [hth.1, hodd]


end SnakeGame
